import Mathlib

/-!
# Shallow embedding of `src/faceit-scraper.js`

The repository is a single JavaScript file holding two near-identical
variants of a scraper: an immediate-write variant (sheet `SHADI`, functions
`processValidBotsForPattern` / `saveImmediatelyToSheet`) and a buffered
variant (sheet `BotAccounts`, functions `getAllValidBotsForPattern` /
`writeUsersToSheet`).  This file embeds the pure data flow of both variants:
the nickname validator, the number-range generation loop, the `Map`-based
deduplication, the pagination loop over a stubbed search transport, the
spreadsheet-service interaction (append / create-sheet / write-header) with
the capacity-rollover logic, and the top-level error flow of `main`.
External services are modelled by explicit oracles: a `transport` function
for the Faceit search API and a per-call outcome `script` for the Google
Sheets API.
-/

namespace FaceitScraper

/-- A validated account as built by both variants:
`{ userId: user.player_id, nickname: user.nickname }`. -/
structure Account where
  userId : String
  nickname : String
deriving DecidableEq, Repr

/-- A raw item of a search-result page (`user.nickname`, `user.player_id`). -/
structure Item where
  nickname : String
  player_id : String
deriving DecidableEq, Repr

/-- A search-result page; only the `items` field of `response.data` is ever
read by the scraper. -/
structure SearchResult where
  items : List Item
deriving DecidableEq, Repr

/-! ## `isValidBotNickname` (lines 77-88 and 520-531)

```js
function isValidBotNickname(nickname, basePattern) {
  if (!nickname.startsWith(basePattern)) { return false; }
  const remainingPart = nickname.substring(basePattern.length);
  const validFormat = /^_\d+$/;
  return validFormat.test(remainingPart);
}
```
-/

/-- The regular expression `/^_\d+$/`: an underscore followed by one or more
ASCII digits and nothing else.  JavaScript `\d` is exactly `[0-9]`. -/
def validFormat : List Char → Bool
  | [] => false
  | c :: rest => c == '_' && (!rest.isEmpty && rest.all Char.isDigit)

/-- `isValidBotNickname(nickname, basePattern)`: `startsWith` then
`/^_\d+$/.test(nickname.substring(basePattern.length))`. -/
def isValidBotNickname (nickname basePattern : String) : Bool :=
  if basePattern.toList.isPrefixOf nickname.toList then
    validFormat (nickname.toList.drop basePattern.toList.length)
  else
    false

/-! ## Number-range generation (lines 403-410 and 765-772)

```js
const numberRanges = ['', '*'];
for (let i = 1; i <= 400; i += 20) {
  const rangeEnd = Math.min(i + 19, 400);
  numberRanges.push(`${i}-${rangeEnd}`);
}
```
The bound `400` is a literal in the source; it is the `maxN` parameter here.
-/

/-- The `for (let i = 1; i <= maxN; i += 20)` loop body pushing
`"<i>-<min(i+19,maxN)>"`. -/
def rangeLoop (maxN : Nat) (i : Nat) : List String :=
  if _h : i ≤ maxN then
    (toString i ++ "-" ++ toString (min (i + 19) maxN)) :: rangeLoop maxN (i + 20)
  else
    []
termination_by maxN + 1 - i
decreasing_by omega

/-- The full `numberRanges` value: `['', '*']` then the numeric spans. -/
def numberRanges (maxN : Nat) : List String :=
  "" :: "*" :: rangeLoop maxN 1

/-! ## `Map`-based deduplication (lines 788-791)

```js
const uniqueBots = Array.from(
  new Map(allValidBots.map(bot => [bot.userId, bot])).values()
);
```
A JavaScript `Map` keeps, for each key, the position of the key's first
insertion and the value of its last `set`.
-/

/-- One `map.set(bot.userId, bot)` step of `new Map(...)` construction: if
the key is present its value is overwritten in place, otherwise the pair is
appended. -/
def mapInsert (acc : List Account) (b : Account) : List Account :=
  if acc.any (fun a => a.userId == b.userId) then
    acc.map (fun a => if a.userId == b.userId then b else a)
  else
    acc ++ [b]

/-- `Array.from(new Map(l.map(bot => [bot.userId, bot])).values())`. -/
def uniqueBots (l : List Account) : List Account :=
  l.foldl mapInsert []

/-! ## `searchUsers` and the pagination loop (lines 502-517 and 534-572)

```js
async function searchUsers(pattern, offset = 0, limit = 100) {
  try { const response = await faceitClient.get(...); return response.data; }
  catch (error) { console.error(...); return { items: [], ... }; }
}
```
The HTTP transport is an oracle `transport pattern offset limit` that either
yields a page or an error; `searchUsers` absorbs the error into an empty
page and never raises.
-/

/-- `searchUsers(pattern, offset, limit)`: the `try`/`catch` around the
transport call; a failure becomes `{ items: [] }`. -/
def searchUsers (transport : String → Nat → Nat → Except String SearchResult)
    (pattern : String) (offset limit : Nat) : SearchResult :=
  match transport pattern offset limit with
  | .ok r => r
  | .error _ => ⟨[]⟩

/-- The `while (hasMore)` pagination loop of `getAllValidBotsForPattern`
(lines 543-569), with a fuel bound to make it structurally recursive; the
second component records the offsets of the search calls issued.

```js
while (hasMore) {
  const result = await searchUsers(pattern, offset, limit);
  if (result.items && result.items.length > 0) {
    const validResults = result.items.filter(user =>
      isValidBotNickname(user.nickname, basePattern));
    validBots = [...validBots, ...validResults.map(user =>
      ({ nickname: user.nickname, userId: user.player_id }))];
    offset += limit;
    hasMore = result.items.length === limit;
  } else { hasMore = false; }
}
```
-/
def getAllLoop (transport : String → Nat → Nat → Except String SearchResult)
    (basePattern pattern : String) (limit : Nat) :
    Nat → Nat → List Account → List Nat → List Account × List Nat
  | 0, _, validBots, callLog => (validBots, callLog)
  | fuel + 1, offset, validBots, callLog =>
    let result := searchUsers transport pattern offset limit
    let callLog := callLog ++ [offset]
    if result.items.length > 0 then
      let validResults := result.items.filter fun user =>
        isValidBotNickname user.nickname basePattern
      let validBots := validBots ++ validResults.map fun user =>
        ⟨user.player_id, user.nickname⟩
      if result.items.length == limit then
        getAllLoop transport basePattern pattern limit fuel (offset + limit) validBots callLog
      else
        (validBots, callLog)
    else
      (validBots, callLog)

/-- `getAllValidBotsForPattern(basePattern, numberRange)` (lines 534-572):
searches `"<basePattern>_<numberRange>"` from offset `0` with `limit = 100`,
returning the collected valid bots and the list of offsets queried. -/
def getAllValidBotsForPattern
    (transport : String → Nat → Nat → Except String SearchResult)
    (basePattern numberRange : String) (fuel : Nat) : List Account × List Nat :=
  getAllLoop transport basePattern (basePattern ++ "_" ++ numberRange) 100 fuel 0 [] []

/-- The orchestrator's iteration over `(basePattern, numberRange)` pairs
(lines 774-785): each pair is processed in turn by
`getAllValidBotsForPattern`. -/
def runPatterns (transport : String → Nat → Nat → Except String SearchResult)
    (pairs : List (String × String)) (fuel : Nat) : List (List Account × List Nat) :=
  pairs.map fun pr => getAllValidBotsForPattern transport pr.1 pr.2 fuel

/-! ## The Google Sheets service model

The scraper performs three kinds of spreadsheet calls: `values.append`,
`batchUpdate`/`addSheet`, and `values.update` of `A1:B1` (the header).  The
service is modelled by a state carrying the sheet contents, a trace of the
calls attempted, a call counter, and a `script` oracle giving each call's
outcome (`none` = success, `some msg` = the error message thrown).
-/

/-- The header row `['User ID', 'Nickname']`. -/
def HEADER : List String := ["User ID", "Nickname"]

/-- A spreadsheet call attempted by the scraper. -/
inductive SheetOp where
  | append (sheet : String) (rows : List (List String))
  | createSheet (sheet : String)
  | writeHeader (sheet : String)
deriving DecidableEq, Repr

/-- The spreadsheet contents: physical sheet name to list of rows. -/
def SheetStore : Type := String → Option (List (List String))

/-- Effect of a successful call on the sheet contents: `append` adds the
rows at the end, `createSheet` yields a fresh empty sheet, `writeHeader`
overwrites row 1 with `HEADER`. -/
def applyOp (sheets : SheetStore) : SheetOp → SheetStore
  | .append s rows => fun m =>
      if m = s then some ((sheets s).getD [] ++ rows) else sheets m
  | .createSheet s => fun m => if m = s then some [] else sheets m
  | .writeHeader s => fun m =>
      if m = s then some (HEADER :: ((sheets s).getD []).drop 1) else sheets m

/-- The state of the sheets service oracle. -/
structure SvcState where
  script : Nat → Option String
  nCalls : Nat
  trace : List SheetOp
  sheets : SheetStore

/-- One service call: consumes the next scripted outcome, records the
attempted call, and applies its effect when it succeeds. -/
def doCall (svc : SvcState) (op : SheetOp) : Option String × SvcState :=
  let out := svc.script svc.nCalls
  (out,
    { svc with
      nCalls := svc.nCalls + 1
      trace := svc.trace ++ [op]
      sheets := match out with
        | none => applyOp svc.sheets op
        | some _ => svc.sheets })

/-- The error-message substring test used by every rollover `catch` block:

```js
error.message.includes('exceeds the limit') ||
error.message.includes('exceeds grid limits') ||
error.message.includes('range') || error.message.includes('limit')
```
-/
def isCapacityMessage (m : String) : Bool :=
  decide ("exceeds the limit".toList <:+: m.toList) ||
  decide ("exceeds grid limits".toList <:+: m.toList) ||
  decide ("range".toList <:+: m.toList) ||
  decide ("limit".toList <:+: m.toList)

/-- The sheet-cursor state mutated by the rollover logic
(`currentSheet`, `sheetIndex`; lines 38-39). -/
structure WriterState where
  currentSheet : String
  sheetIndex : Nat
deriving DecidableEq, Repr

/-- `saveImmediatelyToSheet(sheetsClient, user)` (lines 205-283): append one
row to the current sheet; on a capacity-style error, increment the sheet
index, create `"<base>_<index>"`, write the header there, and retry the
append once; any failure inside the recovery, and any non-capacity append
failure, propagates. -/
def saveImmediatelyToSheet (base : String) (w : WriterState) (user : Account)
    (svc : SvcState) : Except String WriterState × SvcState :=
  let row := [user.userId, user.nickname]
  let r1 := doCall svc (.append w.currentSheet [row])
  match r1.1 with
  | none => (.ok w, r1.2)
  | some msg =>
    if isCapacityMessage msg then
      let sheetIndex := w.sheetIndex + 1
      let currentSheet := base ++ "_" ++ toString sheetIndex
      let r2 := doCall r1.2 (.createSheet currentSheet)
      match r2.1 with
      | some m2 => (.error m2, r2.2)
      | none =>
        let r3 := doCall r2.2 (.writeHeader currentSheet)
        match r3.1 with
        | some m3 => (.error m3, r3.2)
        | none =>
          let r4 := doCall r3.2 (.append currentSheet [row])
          match r4.1 with
          | some m4 => (.error m4, r4.2)
          | none => (.ok ⟨currentSheet, sheetIndex⟩, r4.2)
    else
      (.error msg, r1.2)

/-! ## `writeUsersToSheet` (lines 628-741)

```js
const BATCH_SIZE = 1000;
const batches = [];
for (let i = 0; i < allRows.length; i += BATCH_SIZE) {
  batches.push(allRows.slice(i, i + BATCH_SIZE));
}
```
followed by a per-batch append with the same rollover `catch` as
`saveImmediatelyToSheet`.
-/

/-- The slicing loop: consecutive chunks of at most 1000 rows. -/
def mkBatches (rows : List (List String)) : List (List (List String)) :=
  if _h : rows = [] then []
  else rows.take 1000 :: mkBatches (rows.drop 1000)
termination_by rows.length
decreasing_by
  simp only [List.length_drop]
  cases rows with
  | nil => exact absurd rfl _h
  | cons a t => simp; omega

/-- The `for (let i = 0; i < batches.length; i++)` loop of
`writeUsersToSheet` (lines 655-738): per batch, one append; on a
capacity-style error, create `"<base>_<index+1>"`, write the header, retry
the batch once; other errors and recovery errors propagate. -/
def writeBatchLoop (base : String) (currentSheet : String) (sheetIndex : Nat)
    (svc : SvcState) : List (List (List String)) → Option String × SvcState
  | [] => (none, svc)
  | batch :: rest =>
    let r1 := doCall svc (.append currentSheet batch)
    match r1.1 with
    | none => writeBatchLoop base currentSheet sheetIndex r1.2 rest
    | some msg =>
      if isCapacityMessage msg then
        let sheetIndex := sheetIndex + 1
        let currentSheet := base ++ "_" ++ toString sheetIndex
        let r2 := doCall r1.2 (.createSheet currentSheet)
        match r2.1 with
        | some m2 => (some m2, r2.2)
        | none =>
          let r3 := doCall r2.2 (.writeHeader currentSheet)
          match r3.1 with
          | some m3 => (some m3, r3.2)
          | none =>
            let r4 := doCall r3.2 (.append currentSheet batch)
            match r4.1 with
            | some m4 => (some m4, r4.2)
            | none => writeBatchLoop base currentSheet sheetIndex r4.2 rest
      else
        (some msg, r1.2)

/-- `writeUsersToSheet(sheetsClient, users)` (lines 628-741): returns
immediately when `users` is empty, otherwise converts the users to rows,
slices them into batches of 1000 and runs the append loop starting at
sheet `base` with `sheetIndex = 1`. -/
def writeUsersToSheet (base : String) (svc : SvcState) (users : List Account) :
    Option String × SvcState :=
  if users.length = 0 then (none, svc)
  else
    writeBatchLoop base base 1 svc
      (mkBatches (users.map fun user => [user.userId, user.nickname]))

/-! ## `initializeSpreadsheet` (lines 152-202 and 575-625)

```js
try { await sheetsClient.spreadsheets.get({ ..., ranges: [SHEET_NAME] });
      await sheetsClient.spreadsheets.values.clear({ range: `SHEET!A:B` }); }
catch (error) { /* addSheet SHEET_NAME */ }
await sheetsClient.spreadsheets.values.update({ range: `SHEET!A1:B1`,
  resource: { values: [['User ID', 'Nickname']] } });
```
Modelled on the sheet contents directly (the `get` call is the existence
test whose failure selects the `catch` branch): an existing sheet has its
two columns cleared, a missing sheet is created empty, and the header is
written to row 1.
-/

/-- `initializeSpreadsheet` as a transformation of the sheet contents:
clear-or-create the target sheet, then write the header row. -/
def initializeSpreadsheet (sheets : SheetStore) (name : String) : SheetStore :=
  let sheets1 : SheetStore :=
    match sheets name with
    | some _ => fun m => if m = name then some [] else sheets m
    | none => fun m => if m = name then some [] else sheets m
  fun m =>
    if m = name then some (HEADER :: ((sheets1 name).getD []).drop 1)
    else sheets1 m

/-! ## Top level of `main` (lines 432-443 and 800-810)

```js
async function main() {
  try { ...auth... ...initialize... ...process... }
  catch (error) { console.error('Error in main process:', error); }
}
main().then(() => { console.log('Script execution finished.');
}).catch(error => { console.error('Unhandled error:', error); });
```
Any error thrown inside the `try` body reaches `main`'s `catch`, which logs
it and returns normally, so `main`'s promise always resolves and the
process exits with a success status: there is no `process.exit(1)` and no
rethrow.
-/

/-- Process termination status: `success` is a normal (zero) exit. -/
inductive ExitKind where
  | success
  | failure
deriving DecidableEq, Repr

/-- The body of `main`'s `try` block as a sequence of fallible stages
(authentication, spreadsheet initialization, the scraping loops); an error
in any stage propagates out of the body. -/
def mainBody (auth init process : Except String Unit) : Except String Unit := do
  auth
  init
  process

/-- The `catch` block of `main` (lines 432-435 / 800-802): logs the error
and completes normally. -/
def mainCatch (body : Except String Unit) : List String :=
  match body with
  | .ok _ => []
  | .error e => ["Error in main process: " ++ e]

/-- `main().then(...).catch(...)` (lines 439-443 / 806-810): `main` never
rejects, so the `then` branch logs the final message and the process exits
normally, whatever happened inside. -/
def topLevelRun (body : Except String Unit) : ExitKind × List String :=
  (ExitKind.success, mainCatch body ++ ["Script execution finished."])

/-! ## Measurement helpers and concrete service fixtures -/

/-- Number of `append` calls in a service trace. -/
def appendCount (t : List SheetOp) : Nat :=
  (t.filter fun op => match op with
    | .append _ _ => true
    | _ => false).length

/-- A fresh service whose first call fails with a grid-capacity error and
whose later calls succeed. -/
def svcCapOnce : SvcState :=
  ⟨fun n => if n = 0 then some "exceeds grid limits" else none, 0, [], fun _ => none⟩

/-- A fresh service whose every call fails with a non-capacity error. -/
def svcDenied : SvcState :=
  ⟨fun _ => some "The caller does not have permission", 0, [], fun _ => none⟩

/-- A fresh service whose every call succeeds. -/
def svcAllOk : SvcState := ⟨fun _ => none, 0, [], fun _ => none⟩

/-! # Theorems -/

/-- The regex test accepts exactly the strings of the form `'_' :: d` with
`d` a nonempty list of ASCII digits. -/
theorem validFormat_iff (s : List Char) :
    validFormat s = true ↔
      ∃ d : List Char, s = '_' :: d ∧ d ≠ [] ∧ ∀ c ∈ d, c.isDigit = true := by
  cases s with
  | nil => simp [validFormat]
  | cons c rest =>
    simp only [validFormat, Bool.and_eq_true, beq_iff_eq, Bool.not_eq_true',
      List.isEmpty_eq_false_iff_exists_mem, List.all_eq_true]
    constructor
    · rintro ⟨hc, hne, hall⟩
      subst hc
      refine ⟨rest, rfl, ?_, hall⟩
      rintro rfl
      simp at hne
    · rintro ⟨d, heq, hne, hall⟩
      cases heq
      exact ⟨rfl, List.exists_mem_of_ne_nil _ hne, hall⟩

/-- C1: `isValidBotNickname(nickname, pattern)` returns true if and only if
the nickname is the pattern followed by a single underscore followed by one
or more ASCII digits, with nothing else trailing (case-sensitive exact
prefix match on the pattern). -/
theorem isValidBotNickname_iff (nickname basePattern : String) :
    isValidBotNickname nickname basePattern = true ↔
      ∃ d : List Char, d ≠ [] ∧ (∀ c ∈ d, '0' ≤ c ∧ c ≤ '9') ∧
        nickname.toList = basePattern.toList ++ '_' :: d := by
  unfold isValidBotNickname
  by_cases hpre : basePattern.toList.isPrefixOf nickname.toList
  · rw [if_pos hpre]
    rw [ List.isPrefixOf_iff_prefix] at hpre
    obtain ⟨t, ht⟩ := hpre
    rw [validFormat_iff]
    constructor
    · rintro ⟨d, hd, hne, hall⟩
      refine ⟨d, hne, ?_, ?_⟩
      · intro c hc
        simpa [Char.isDigit, Char.le_def] using hall c hc
      · rw [← ht, List.drop_left] at hd
        rw [← ht, hd]
    · rintro ⟨d, hne, hall, heq⟩
      refine ⟨d, ?_, hne, ?_⟩
      · rw [← ht, List.drop_left]
        have h2 : basePattern.toList ++ t = basePattern.toList ++ '_' :: d := by
          rw [ht, heq]
        exact List.append_cancel_left h2
      · intro c hc
        simpa [Char.isDigit, Char.le_def] using hall c hc
  · rw [if_neg hpre]
    simp only [Bool.false_eq_true, false_iff]
    rintro ⟨d, hne, hall, heq⟩
    apply hpre
    rw [ List.isPrefixOf_iff_prefix]
    exact ⟨'_' :: d, heq.symm⟩

/-- `mapInsert` never changes the multiset of user ids of existing entries:
it keeps the id list when the key is present and appends the new id
otherwise. -/
theorem mapInsert_map_userId (acc : List Account) (b : Account) :
    (mapInsert acc b).map Account.userId =
      if acc.any (fun a => a.userId == b.userId) then acc.map Account.userId
      else acc.map Account.userId ++ [b.userId] := by
  unfold mapInsert
  split
  · rw [List.map_map]
    apply List.map_congr_left
    intro a _
    by_cases h : a.userId = b.userId <;> simp [Function.comp, h]
  · simp

/-- `mapInsert` preserves distinctness of the stored user ids. -/
theorem mapInsert_nodup (acc : List Account) (b : Account)
    (h : (acc.map Account.userId).Nodup) :
    ((mapInsert acc b).map Account.userId).Nodup := by
  rw [mapInsert_map_userId]
  split
  · exact h
  · rename_i hany
    simp only [List.any_eq_true, beq_iff_eq, not_exists, not_and] at hany
    apply List.Nodup.append h (by simp)
    intro x hx
    simp only [List.mem_map] at hx
    obtain ⟨a, ha, rfl⟩ := hx
    simp only [List.mem_singleton]
    exact fun hxe => hany a ha hxe

/-- Invariant of the `Map`-construction fold: ids stay distinct, every entry
is the last occurrence of its id in the processed list (or an untouched
initial entry), and exactly the ids of the input are present. -/
theorem foldl_mapInsert_spec (l : List Account) :
    ∀ acc : List Account, (acc.map Account.userId).Nodup →
      ((l.foldl mapInsert acc).map Account.userId).Nodup ∧
      (∀ a ∈ l.foldl mapInsert acc,
        (l.filter (fun x => x.userId == a.userId)).getLast? = some a ∨
        (l.filter (fun x => x.userId == a.userId) = [] ∧ a ∈ acc)) ∧
      (∀ k, k ∈ (l.foldl mapInsert acc).map Account.userId ↔
        (k ∈ acc.map Account.userId ∨ k ∈ l.map Account.userId)) := by
  induction l with
  | nil =>
    intro acc hnd
    refine ⟨hnd, ?_, ?_⟩
    · intro a ha
      exact Or.inr ⟨by simp, ha⟩
    · intro k; simp
  | cons b t ih =>
    intro acc hnd
    have hnd' := mapInsert_nodup acc b hnd
    obtain ⟨ih1, ih2, ih3⟩ := ih (mapInsert acc b) hnd'
    rw [List.foldl_cons]
    refine ⟨ih1, ?_, ?_⟩
    · intro a ha
      rcases ih2 a ha with h1 | ⟨h2, h3⟩
      · left
        rw [List.filter_cons]
        split
        · have hne : t.filter (fun x => x.userId == a.userId) ≠ [] := by
            intro hnil
            rw [hnil] at h1
            simp at h1
          cases hfe : t.filter (fun x => x.userId == a.userId) with
          | nil => exact absurd hfe hne
          | cons c cs =>
            rw [hfe] at h1
            rw [List.getLast?_cons_cons]
            exact h1
        · exact h1
      · unfold mapInsert at h3
        by_cases hany : acc.any (fun x => x.userId == b.userId)
        · rw [if_pos hany] at h3
          simp only [List.mem_map] at h3
          obtain ⟨a0, ha0, heq⟩ := h3
          by_cases h0 : a0.userId = b.userId
          · rw [if_pos (by simpa using h0)] at heq
            subst heq
            left
            rw [List.filter_cons, if_pos (by simp), h2]
            simp
          · rw [if_neg (by simpa using h0)] at heq
            subst heq
            right
            constructor
            · rw [List.filter_cons, if_neg, h2]
              simp
              intro hc
              exact h0 hc.symm
            · exact ha0
        · rw [if_neg hany] at h3
          rcases List.mem_append.mp h3 with hacc | hb
          · right
            simp only [List.any_eq_true, beq_iff_eq, not_exists, not_and] at hany
            constructor
            · rw [List.filter_cons, if_neg, h2]
              simp
              intro hc
              exact hany a hacc hc.symm
            · exact hacc
          · simp only [List.mem_singleton] at hb
            subst hb
            left
            rw [List.filter_cons, if_pos (by simp), h2]
            simp
    · intro k
      rw [ih3 k]
      rw [mapInsert_map_userId]
      by_cases hany : acc.any (fun x => x.userId == b.userId)
      · rw [if_pos hany]
        simp only [List.any_eq_true, beq_iff_eq] at hany
        obtain ⟨a0, ha0, h0⟩ := hany
        simp only [List.map_cons, List.mem_cons]
        constructor
        · rintro (h | h)
          · exact Or.inl h
          · exact Or.inr (Or.inr h)
        · rintro (h | h | h)
          · exact Or.inl h
          · subst h
            exact Or.inl (by
              rw [← h0]
              exact List.mem_map_of_mem Account.userId ha0)
          · exact Or.inr h
      · rw [if_neg hany]
        simp only [List.mem_append, List.mem_singleton, List.map_cons,
          List.mem_cons]
        tauto

/-- C2 (amended): the `Map`-based deduplication in `main` forwards each
`accountId` at most once and forwards exactly the ids of the input, but the
nickname retained for a repeated id is the one from the LAST occurrence of
that id in the input sequence, not the first. -/
theorem uniqueBots_spec (l : List Account) :
    ((uniqueBots l).map Account.userId).Nodup ∧
    (∀ a ∈ uniqueBots l,
      (l.filter (fun x => x.userId == a.userId)).getLast? = some a) ∧
    (∀ k, k ∈ (uniqueBots l).map Account.userId ↔ k ∈ l.map Account.userId) := by
  obtain ⟨h1, h2, h3⟩ := foldl_mapInsert_spec l [] (by simp)
  refine ⟨h1, ?_, ?_⟩
  · intro a ha
    rcases h2 a ha with h | ⟨_, habs⟩
    · exact h
    · exact absurd habs (by simp)
  · intro k
    unfold uniqueBots
    rw [h3 k]
    simp

/-- C2 (counterexample): on an input repeating `accountId` `"id1"` with
nickname `"first"` then `"second"`, the deduplicated rows retain the
nickname of the last occurrence, so the claim that the first-seen nickname
is retained is false. -/
theorem uniqueBots_counterexample :
    uniqueBots [⟨"id1", "first"⟩, ⟨"id1", "second"⟩] = [⟨"id1", "second"⟩] ∧
    (uniqueBots [⟨"id1", "first"⟩, ⟨"id1", "second"⟩]).map Account.nickname ≠
      ["first"] := by
  decide

/-- C7: the generated number-range descriptors are the empty string, the
wildcard, and the width-20 spans partitioning `[1, MAX]`: for `MAX = 40`
exactly `["", "*", "1-20", "21-40"]`, and for the code's `MAX = 400` the
spans `"1-20"`, `"21-40"`, …, `"381-400"` (twenty of them, 22 entries in
all). -/
theorem numberRanges_spec :
    numberRanges 40 = ["", "*", "1-20", "21-40"] ∧
    numberRanges 400 = "" :: "*" :: (List.range 20).map
      (fun k => toString (20 * k + 1) ++ "-" ++ toString (20 * k + 20)) ∧
    (numberRanges 400).length = 22 := by
  have h400 : numberRanges 400 = "" :: "*" :: (List.range 20).map
      (fun k => toString (20 * k + 1) ++ "-" ++ toString (20 * k + 20)) := by
    simp [numberRanges, rangeLoop, List.range_succ]
  refine ⟨?_, h400, ?_⟩
  · simp [numberRanges, rangeLoop]
    decide
  · rw [h400]
    simp

/-- One unfolding of the pagination loop: the page at `offset` is fetched,
its valid results are accumulated, and the loop continues exactly when the
returned item count equals the limit. -/
theorem getAllLoop_succ (transport : String → Nat → Nat → Except String SearchResult)
    (basePattern pattern : String) (fuel offset : Nat) (validBots : List Account)
    (callLog : List Nat) :
    getAllLoop transport basePattern pattern 100 (fuel + 1) offset validBots callLog =
      if (searchUsers transport pattern offset 100).items.length = 100 then
        getAllLoop transport basePattern pattern 100 fuel (offset + 100)
          (validBots ++ ((searchUsers transport pattern offset 100).items.filter fun user =>
            isValidBotNickname user.nickname basePattern).map fun user =>
              ⟨user.player_id, user.nickname⟩)
          (callLog ++ [offset])
      else
        (validBots ++ ((searchUsers transport pattern offset 100).items.filter fun user =>
          isValidBotNickname user.nickname basePattern).map fun user =>
            ⟨user.player_id, user.nickname⟩,
         callLog ++ [offset]) := by
  simp only [getAllLoop]
  by_cases hpos : (searchUsers transport pattern offset 100).items.length > 0
  · rw [if_pos hpos]
    by_cases h100 : (searchUsers transport pattern offset 100).items.length = 100
    · simp [h100]
    · simp [h100]
  · rw [if_neg hpos]
    have hnil : (searchUsers transport pattern offset 100).items = [] := by
      cases h : (searchUsers transport pattern offset 100).items with
      | nil => rfl
      | cons x xs => exact absurd (by rw [h]; simp) hpos
    rw [if_neg (by rw [hnil]; simp)]
    simp [hnil]

/-- C5: `searchUsers` never raises — a failing transport yields the empty
page — so with a search service that fails on every call,
`getAllValidBotsForPattern` returns the empty collection after a single
page fetch, and the orchestrator still processes every (pattern, range)
pair in turn. -/
theorem searchUsers_fail_soft
    (transport : String → Nat → Nat → Except String SearchResult)
    (herr : ∀ p o l, ∃ e, transport p o l = .error e) :
    (∀ p o l, searchUsers transport p o l = ⟨[]⟩) ∧
    (∀ basePattern numberRange fuel,
      getAllValidBotsForPattern transport basePattern numberRange (fuel + 1) = ([], [0])) ∧
    (∀ pairs fuel,
      runPatterns transport pairs (fuel + 1) = pairs.map fun _ => ([], [0])) := by
  have hempty : ∀ p o l, searchUsers transport p o l = ⟨[]⟩ := by
    intro p o l
    obtain ⟨e, he⟩ := herr p o l
    simp [searchUsers, he]
  have hpat : ∀ basePattern numberRange fuel,
      getAllValidBotsForPattern transport basePattern numberRange (fuel + 1) = ([], [0]) := by
    intro bp nr fuel
    unfold getAllValidBotsForPattern
    rw [getAllLoop_succ, if_neg (by rw [hempty]; simp), hempty]
    simp
  exact ⟨hempty, hpat, fun pairs fuel => List.map_congr_left fun pr _ => hpat pr.1 pr.2 fuel⟩

/-- C5 (witness): with a transport that raises on every call, the pattern
`---TAKE_1-20` yields the empty collection after one page fetch and both
configured pairs are still processed. -/
theorem searchUsers_fail_soft_witness :
    getAllValidBotsForPattern (fun _ _ _ => .error "network error") "---TAKE" "1-20" 5
      = ([], [0]) ∧
    runPatterns (fun _ _ _ => .error "network error")
        [("---TAKE", ""), ("---hiELO", "*")] 5 = [([], [0]), ([], [0])] := by
  refine ⟨?_, ?_⟩
  · exact (searchUsers_fail_soft (fun _ _ _ => .error "network error")
      (fun p o l => ⟨"network error", rfl⟩)).2.1 "---TAKE" "1-20" 4
  · exact (searchUsers_fail_soft (fun _ _ _ => .error "network error")
      (fun p o l => ⟨"network error", rfl⟩)).2.2 [("---TAKE", ""), ("---hiELO", "*")] 4

/-- C6 (amended): the pagination loop continues after a page exactly when
the returned item count EQUALS the requested limit (for a service returning
at most `limit` items this coincides with "last page iff strictly fewer
than `limit`"); in particular, with full pages at offsets 0 and 100 and a
short page at 200, the loop issues exactly the three calls at offsets 0,
100 and 200 and stops. -/
theorem pagination_lastPage_spec
    (transport : String → Nat → Nat → Except String SearchResult)
    (basePattern numberRange : String)
    (h0 : (searchUsers transport (basePattern ++ "_" ++ numberRange) 0 100).items.length = 100)
    (h1 : (searchUsers transport (basePattern ++ "_" ++ numberRange) 100 100).items.length = 100)
    (h2 : (searchUsers transport (basePattern ++ "_" ++ numberRange) 200 100).items.length < 100) :
    (∀ pattern fuel offset validBots callLog,
      getAllLoop transport basePattern pattern 100 (fuel + 1) offset validBots callLog =
        if (searchUsers transport pattern offset 100).items.length = 100 then
          getAllLoop transport basePattern pattern 100 fuel (offset + 100)
            (validBots ++ ((searchUsers transport pattern offset 100).items.filter fun user =>
              isValidBotNickname user.nickname basePattern).map fun user =>
                ⟨user.player_id, user.nickname⟩)
            (callLog ++ [offset])
        else
          (validBots ++ ((searchUsers transport pattern offset 100).items.filter fun user =>
            isValidBotNickname user.nickname basePattern).map fun user =>
              ⟨user.player_id, user.nickname⟩,
           callLog ++ [offset])) ∧
    (∀ k, (getAllValidBotsForPattern transport basePattern numberRange (k + 3)).2
      = [0, 100, 200]) := by
  refine ⟨fun pattern fuel offset validBots callLog =>
    getAllLoop_succ transport basePattern pattern fuel offset validBots callLog, ?_⟩
  intro k
  unfold getAllValidBotsForPattern
  rw [show k + 3 = k + 2 + 1 from rfl, getAllLoop_succ, if_pos h0]
  rw [show k + 2 = k + 1 + 1 from rfl, getAllLoop_succ]
  simp only [Nat.zero_add]
  rw [if_pos h1, getAllLoop_succ]
  simp only [show (100 : Nat) + 100 = 200 from rfl]
  rw [if_neg (Nat.ne_of_lt h2)]
  simp

/-- C6 (witness): a stub returning 100 items at offsets 0 and 100 and an
empty page at 200 makes the loop issue exactly the calls at offsets 0, 100
and 200. -/
theorem pagination_lastPage_spec_witness :
    (getAllValidBotsForPattern
      (fun _ o _ => if o < 200 then .ok ⟨List.replicate 100 ⟨"x", "y"⟩⟩ else .ok ⟨[]⟩)
      "---TAKE" "1-20" 7).2 = [0, 100, 200] := by
  exact (pagination_lastPage_spec
    (fun _ o _ => if o < 200 then .ok ⟨List.replicate 100 ⟨"x", "y"⟩⟩ else .ok ⟨[]⟩)
    "---TAKE" "1-20" (by decide) (by decide) (by decide)).2 4

/-- C6 (counterexample): a page of 101 items — NOT strictly fewer than the
limit 100 — is nevertheless treated as the last page: the loop stops after
the single call at offset 0, refuting "last page exactly when the count is
strictly less than the limit". -/
theorem pagination_lastPage_counterexample :
    (getAllValidBotsForPattern
      (fun _ _ _ => .ok ⟨List.replicate 101 ⟨"x", "y"⟩⟩) "---TAKE" "1-20" 5).2 = [0] ∧
    ¬ (101 < 100) := by
  refine ⟨?_, by decide⟩
  rw [show (5 : Nat) = 4 + 1 from rfl, getAllValidBotsForPattern, getAllLoop_succ,
    if_neg (by decide)]
  simp

/-- C3: when an append fails with a capacity-style message, the writer
increments the sheet index, creates `"<base>_<index>"`, writes the header
there, and retries the same row exactly once; a failure of the creation,
header write or retry propagates as the result error, and in the successful
case the new sheet holds the header and the row exactly once while every
other sheet is untouched. -/
theorem saveImmediatelyToSheet_rollover (base : String) (w : WriterState)
    (user : Account) (svc : SvcState) (msg : String)
    (hfail : svc.script svc.nCalls = some msg)
    (hcap : isCapacityMessage msg = true) :
    (∀ m2, svc.script (svc.nCalls + 1) = some m2 →
      (saveImmediatelyToSheet base w user svc).1 = .error m2 ∧
      (saveImmediatelyToSheet base w user svc).2.trace = svc.trace ++
        [.append w.currentSheet [[user.userId, user.nickname]],
         .createSheet (base ++ "_" ++ toString (w.sheetIndex + 1))]) ∧
    (∀ m3, svc.script (svc.nCalls + 1) = none → svc.script (svc.nCalls + 2) = some m3 →
      (saveImmediatelyToSheet base w user svc).1 = .error m3 ∧
      (saveImmediatelyToSheet base w user svc).2.trace = svc.trace ++
        [.append w.currentSheet [[user.userId, user.nickname]],
         .createSheet (base ++ "_" ++ toString (w.sheetIndex + 1)),
         .writeHeader (base ++ "_" ++ toString (w.sheetIndex + 1))]) ∧
    (∀ m4, svc.script (svc.nCalls + 1) = none → svc.script (svc.nCalls + 2) = none →
      svc.script (svc.nCalls + 3) = some m4 →
      (saveImmediatelyToSheet base w user svc).1 = .error m4) ∧
    (svc.script (svc.nCalls + 1) = none → svc.script (svc.nCalls + 2) = none →
      svc.script (svc.nCalls + 3) = none →
      (saveImmediatelyToSheet base w user svc).1 =
        .ok ⟨base ++ "_" ++ toString (w.sheetIndex + 1), w.sheetIndex + 1⟩ ∧
      (saveImmediatelyToSheet base w user svc).2.trace = svc.trace ++
        [.append w.currentSheet [[user.userId, user.nickname]],
         .createSheet (base ++ "_" ++ toString (w.sheetIndex + 1)),
         .writeHeader (base ++ "_" ++ toString (w.sheetIndex + 1)),
         .append (base ++ "_" ++ toString (w.sheetIndex + 1)) [[user.userId, user.nickname]]] ∧
      (saveImmediatelyToSheet base w user svc).2.nCalls = svc.nCalls + 4 ∧
      (saveImmediatelyToSheet base w user svc).2.sheets
          (base ++ "_" ++ toString (w.sheetIndex + 1)) =
        some [HEADER, [user.userId, user.nickname]] ∧
      (∀ m, m ≠ base ++ "_" ++ toString (w.sheetIndex + 1) →
        (saveImmediatelyToSheet base w user svc).2.sheets m = svc.sheets m)) := by
  refine ⟨?_, ?_, ?_, ?_⟩
  · intro m2 h2
    simp [saveImmediatelyToSheet, doCall, hfail, hcap, h2]
  · intro m3 h2 h3
    simp [saveImmediatelyToSheet, doCall, hfail, hcap, h2, h3]
  · intro m4 h2 h3 h4
    simp [saveImmediatelyToSheet, doCall, hfail, hcap, h2, h3, h4]
  · intro h2 h3 h4
    refine ⟨?_, ?_, ?_, ?_, ?_⟩
    · simp [saveImmediatelyToSheet, doCall, hfail, hcap, h2, h3, h4]
    · simp [saveImmediatelyToSheet, doCall, hfail, hcap, h2, h3, h4]
    · simp [saveImmediatelyToSheet, doCall, hfail, hcap, h2, h3, h4]
    · simp [saveImmediatelyToSheet, doCall, hfail, hcap, h2, h3, h4, applyOp, HEADER]
    · intro m hm
      simp [saveImmediatelyToSheet, doCall, hfail, hcap, h2, h3, h4, applyOp, hm]

/-- C3 (witness): starting at sheet `X` with index 1, a capacity failure on
the first append is recovered by creating `X_2`, writing its header and
re-appending the row there, which then holds exactly the header and the
row. -/
theorem saveImmediatelyToSheet_rollover_witness :
    (saveImmediatelyToSheet "X" ⟨"X", 1⟩ ⟨"id1", "bot_1"⟩ svcCapOnce).1 =
      .ok ⟨"X_2", 2⟩ ∧
    (saveImmediatelyToSheet "X" ⟨"X", 1⟩ ⟨"id1", "bot_1"⟩ svcCapOnce).2.trace =
      [.append "X" [["id1", "bot_1"]], .createSheet "X_2", .writeHeader "X_2",
        .append "X_2" [["id1", "bot_1"]]] ∧
    (saveImmediatelyToSheet "X" ⟨"X", 1⟩ ⟨"id1", "bot_1"⟩ svcCapOnce).2.sheets "X_2" =
      some [HEADER, ["id1", "bot_1"]] := by
  have h := saveImmediatelyToSheet_rollover "X" ⟨"X", 1⟩ ⟨"id1", "bot_1"⟩ svcCapOnce
    "exceeds grid limits" rfl (by decide)
  obtain ⟨-, -, -, h4⟩ := h
  obtain ⟨ha, hb, -, hd, -⟩ := h4 rfl rfl rfl
  have hx : "X" ++ "_" ++ toString ((⟨"X", 1⟩ : WriterState).sheetIndex + 1) = "X_2" := by
    decide
  rw [hx] at ha hb hd
  exact ⟨ha, hb, hd⟩

/-- C4: an append failure whose message is not capacity-related is not
retried: both writer variants perform exactly the one failed append call
(no sheet creation, no header write, no retry) and propagate that very
error to the caller. -/
theorem nonCapacity_append_fatal (base cur : String) (idx : Nat) (w : WriterState)
    (user : Account) (svc : SvcState) (msg : String)
    (batch : List (List String)) (rest : List (List (List String)))
    (hfail : svc.script svc.nCalls = some msg)
    (hcap : isCapacityMessage msg = false) :
    (saveImmediatelyToSheet base w user svc).1 = .error msg ∧
    (saveImmediatelyToSheet base w user svc).2.trace =
      svc.trace ++ [.append w.currentSheet [[user.userId, user.nickname]]] ∧
    (saveImmediatelyToSheet base w user svc).2.nCalls = svc.nCalls + 1 ∧
    (writeBatchLoop base cur idx svc (batch :: rest)).1 = some msg ∧
    (writeBatchLoop base cur idx svc (batch :: rest)).2.trace =
      svc.trace ++ [.append cur batch] ∧
    (writeBatchLoop base cur idx svc (batch :: rest)).2.nCalls = svc.nCalls + 1 := by
  refine ⟨?_, ?_, ?_, ?_, ?_, ?_⟩ <;>
    simp [saveImmediatelyToSheet, writeBatchLoop, doCall, hfail, hcap]

/-- C4 (witness): a permission error is not capacity-related; both writers
fail with exactly that error after the single append attempt. -/
theorem nonCapacity_append_fatal_witness :
    isCapacityMessage "The caller does not have permission" = false ∧
    (saveImmediatelyToSheet "S" ⟨"S", 1⟩ ⟨"id9", "bot_9"⟩ svcDenied).1 =
      .error "The caller does not have permission" ∧
    (writeBatchLoop "S" "S" 1 svcDenied [[["id9", "bot_9"]]]).1 =
      some "The caller does not have permission" := by
  have h := nonCapacity_append_fatal "S" "S" 1 ⟨"S", 1⟩ ⟨"id9", "bot_9"⟩ svcDenied
    "The caller does not have permission" [["id9", "bot_9"]] [] rfl (by decide)
  exact ⟨by decide, h.1, h.2.2.2.1⟩

/-- The slicing loop partitions the rows: concatenating the batches gives
back the original row list (order preserved). -/
theorem mkBatches_join (rows : List (List String)) :
    (mkBatches rows).flatten = rows := by
  induction rows using mkBatches.induct with
  | case1 => rw [mkBatches]; simp
  | case2 rows hne ih =>
    rw [mkBatches, dif_neg hne]
    simp [ih]

/-- Every batch produced by the slicing loop has at most 1000 rows. -/
theorem mkBatches_le (rows : List (List String)) :
    ∀ b ∈ mkBatches rows, b.length ≤ 1000 := by
  induction rows using mkBatches.induct with
  | case1 => rw [mkBatches]; simp
  | case2 rows hne ih =>
    rw [mkBatches, dif_neg hne]
    intro b hb
    rcases List.mem_cons.mp hb with h | h
    · subst h; simp
    · exact ih b h

/-- The slicing loop produces exactly `ceil(n / 1000)` batches. -/
theorem mkBatches_length (rows : List (List String)) :
    (mkBatches rows).length = (rows.length + 999) / 1000 := by
  induction rows using mkBatches.induct with
  | case1 => rw [mkBatches]; simp
  | case2 rows hne ih =>
    rw [mkBatches, dif_neg hne]
    simp only [List.length_cons, ih, List.length_drop]
    have hpos : 0 < rows.length := List.length_pos.mpr hne
    omega


/-- `appendCount` is additive over trace concatenation. -/
theorem appendCount_append (a b : List SheetOp) :
    appendCount (a ++ b) = appendCount a + appendCount b := by
  simp [appendCount]

/-- Trace invariant of the batch-append loop: the calls it adds to the
trace carry only whole input batches as append payloads, with at most two
appends per batch overall, and at least one append per batch when the loop
returns successfully. -/
theorem writeBatchLoop_trace (base : String) :
    ∀ (batches : List (List (List String))) (cur : String) (idx : Nat) (svc : SvcState),
      ∃ Δ : List SheetOp,
        (writeBatchLoop base cur idx svc batches).2.trace = svc.trace ++ Δ ∧
        (∀ s rows, SheetOp.append s rows ∈ Δ → rows ∈ batches) ∧
        appendCount Δ ≤ 2 * batches.length ∧
        ((writeBatchLoop base cur idx svc batches).1 = none →
          batches.length ≤ appendCount Δ) := by
  intro batches
  induction batches with
  | nil =>
    intro cur idx svc
    exact ⟨[], by simp [writeBatchLoop], by simp, by simp [appendCount], by simp⟩
  | cons batch rest ih =>
    intro cur idx svc
    cases hout : svc.script svc.nCalls with
    | none =>
      have h1 : (doCall svc (SheetOp.append cur batch)).1 = none := by
        simp [doCall, hout]
      have h1t : (doCall svc (SheetOp.append cur batch)).2.trace =
          svc.trace ++ [SheetOp.append cur batch] := by
        simp [doCall]
      simp only [writeBatchLoop, h1]
      obtain ⟨Δ, htr, hmem, hub, hlb⟩ :=
        ih cur idx (doCall svc (SheetOp.append cur batch)).2
      refine ⟨SheetOp.append cur batch :: Δ, ?_, ?_, ?_, ?_⟩
      · rw [htr, h1t]; simp
      · intro s rows hr
        rcases List.mem_cons.mp hr with h | h
        · injection h with h1' h2'
          subst h2'
          exact List.mem_cons_self _ _
        · exact List.mem_cons_of_mem _ (hmem s rows h)
      · have : appendCount (SheetOp.append cur batch :: Δ) =
            appendCount Δ + 1 := by
          simp [appendCount, List.filter]
        rw [this]
        simp only [List.length_cons]
        omega
      · intro hnone
        have := hlb hnone
        have hc : appendCount (SheetOp.append cur batch :: Δ) =
            appendCount Δ + 1 := by
          simp [appendCount, List.filter]
        rw [hc]
        simp only [List.length_cons]
        omega
    | some msg =>
      have h1 : (doCall svc (SheetOp.append cur batch)).1 = some msg := by
        simp [doCall, hout]
      by_cases hcap : isCapacityMessage msg
      · cases hout2 : svc.script (svc.nCalls + 1) with
        | some m2 =>
          have h2 : (doCall (doCall svc (SheetOp.append cur batch)).2
              (SheetOp.createSheet (base ++ "_" ++ toString (idx + 1)))).1 = some m2 := by
            simp [doCall, hout2]
          simp only [writeBatchLoop, h1, hcap, if_true, h2]
          refine ⟨[SheetOp.append cur batch,
            SheetOp.createSheet (base ++ "_" ++ toString (idx + 1))], ?_, ?_, ?_, ?_⟩
          · simp [doCall]
          · intro s rows hr
            rcases List.mem_cons.mp hr with h | h
            · injection h with h1' h2'
              subst h2'
              exact List.mem_cons_self _ _
            · rcases List.mem_cons.mp h with h' | h'
              · exact absurd h' (by simp)
              · exact absurd h' (by simp)
          · simp only [appendCount, List.filter, List.length_cons]
            simp
            omega
          · intro hnone
            simp at hnone
        | none =>
          have h2 : (doCall (doCall svc (SheetOp.append cur batch)).2
              (SheetOp.createSheet (base ++ "_" ++ toString (idx + 1)))).1 = none := by
            simp [doCall, hout2]
          cases hout3 : svc.script (svc.nCalls + 2) with
          | some m3 =>
            have h3 : (doCall (doCall (doCall svc (SheetOp.append cur batch)).2
                (SheetOp.createSheet (base ++ "_" ++ toString (idx + 1)))).2
                (SheetOp.writeHeader (base ++ "_" ++ toString (idx + 1)))).1 = some m3 := by
              simp [doCall, hout3]
            simp only [writeBatchLoop, h1, hcap, if_true, h2, h3]
            refine ⟨[SheetOp.append cur batch,
              SheetOp.createSheet (base ++ "_" ++ toString (idx + 1)),
              SheetOp.writeHeader (base ++ "_" ++ toString (idx + 1))], ?_, ?_, ?_, ?_⟩
            · simp [doCall]
            · intro s rows hr
              rcases List.mem_cons.mp hr with h | h
              · injection h with h1' h2'
                subst h2'
                exact List.mem_cons_self _ _
              · rcases List.mem_cons.mp h with h' | h'
                · exact absurd h' (by simp)
                · rcases List.mem_cons.mp h' with h'' | h''
                  · exact absurd h'' (by simp)
                  · exact absurd h'' (by simp)
            · simp only [appendCount, List.filter, List.length_cons]
              simp
              omega
            · intro hnone
              simp at hnone
          | none =>
            have h3 : (doCall (doCall (doCall svc (SheetOp.append cur batch)).2
                (SheetOp.createSheet (base ++ "_" ++ toString (idx + 1)))).2
                (SheetOp.writeHeader (base ++ "_" ++ toString (idx + 1)))).1 = none := by
              simp [doCall, hout3]
            cases hout4 : svc.script (svc.nCalls + 3) with
            | some m4 =>
              have h4 : (doCall (doCall (doCall (doCall svc (SheetOp.append cur batch)).2
                  (SheetOp.createSheet (base ++ "_" ++ toString (idx + 1)))).2
                  (SheetOp.writeHeader (base ++ "_" ++ toString (idx + 1)))).2
                  (SheetOp.append (base ++ "_" ++ toString (idx + 1)) batch)).1 = some m4 := by
                simp [doCall, hout4]
              simp only [writeBatchLoop, h1, hcap, if_true, h2, h3, h4]
              refine ⟨[SheetOp.append cur batch,
                SheetOp.createSheet (base ++ "_" ++ toString (idx + 1)),
                SheetOp.writeHeader (base ++ "_" ++ toString (idx + 1)),
                SheetOp.append (base ++ "_" ++ toString (idx + 1)) batch], ?_, ?_, ?_, ?_⟩
              · simp [doCall]
              · intro s rows hr
                simp only [List.mem_cons, List.not_mem_nil, or_false] at hr
                rcases hr with h | h | h | h
                · injection h with h1' h2'
                  subst h2'
                  exact List.mem_cons_self _ _
                · exact absurd h (by simp)
                · exact absurd h (by simp)
                · injection h with h1' h2'
                  subst h2'
                  exact List.mem_cons_self _ _
              · simp only [appendCount, List.filter, List.length_cons]
                simp
              · intro hnone
                simp at hnone
            | none =>
              have h4 : (doCall (doCall (doCall (doCall svc (SheetOp.append cur batch)).2
                  (SheetOp.createSheet (base ++ "_" ++ toString (idx + 1)))).2
                  (SheetOp.writeHeader (base ++ "_" ++ toString (idx + 1)))).2
                  (SheetOp.append (base ++ "_" ++ toString (idx + 1)) batch)).1 = none := by
                simp [doCall, hout4]
              simp only [writeBatchLoop, h1, hcap, if_true, h2, h3, h4]
              obtain ⟨Δ, htr, hmem, hub, hlb⟩ :=
                ih (base ++ "_" ++ toString (idx + 1)) (idx + 1)
                  (doCall (doCall (doCall (doCall svc (SheetOp.append cur batch)).2
                    (SheetOp.createSheet (base ++ "_" ++ toString (idx + 1)))).2
                    (SheetOp.writeHeader (base ++ "_" ++ toString (idx + 1)))).2
                    (SheetOp.append (base ++ "_" ++ toString (idx + 1)) batch)).2
              refine ⟨SheetOp.append cur batch ::
                SheetOp.createSheet (base ++ "_" ++ toString (idx + 1)) ::
                SheetOp.writeHeader (base ++ "_" ++ toString (idx + 1)) ::
                SheetOp.append (base ++ "_" ++ toString (idx + 1)) batch :: Δ, ?_, ?_, ?_, ?_⟩
              · rw [htr]
                simp [doCall]
              · intro s rows hr
                simp only [List.mem_cons] at hr
                rcases hr with h | h | h | h | h
                · injection h with h1' h2'
                  subst h2'
                  exact List.mem_cons_self _ _
                · exact absurd h (by simp)
                · exact absurd h (by simp)
                · injection h with h1' h2'
                  subst h2'
                  exact List.mem_cons_self _ _
                · exact List.mem_cons_of_mem _ (hmem s rows h)
              · have hc : appendCount (SheetOp.append cur batch ::
                    SheetOp.createSheet (base ++ "_" ++ toString (idx + 1)) ::
                    SheetOp.writeHeader (base ++ "_" ++ toString (idx + 1)) ::
                    SheetOp.append (base ++ "_" ++ toString (idx + 1)) batch :: Δ) =
                    appendCount Δ + 2 := by
                  simp [appendCount, List.filter]
                rw [hc]
                simp only [List.length_cons]
                omega
              · intro hnone
                have := hlb hnone
                have hc : appendCount (SheetOp.append cur batch ::
                    SheetOp.createSheet (base ++ "_" ++ toString (idx + 1)) ::
                    SheetOp.writeHeader (base ++ "_" ++ toString (idx + 1)) ::
                    SheetOp.append (base ++ "_" ++ toString (idx + 1)) batch :: Δ) =
                    appendCount Δ + 2 := by
                  simp [appendCount, List.filter]
                rw [hc]
                simp only [List.length_cons]
                omega
      · have hcapf : isCapacityMessage msg = false := by
          simpa using hcap
        simp only [writeBatchLoop, h1, hcapf, if_false]
        refine ⟨[SheetOp.append cur batch], ?_, ?_, ?_, ?_⟩
        · simp [doCall]
        · intro s rows hr
          rcases List.mem_cons.mp hr with h | h
          · injection h with h1' h2'
            subst h2'
            exact List.mem_cons_self _ _
          · exact absurd h (by simp)
        · simp only [appendCount, List.filter, List.length_cons]
          simp
          omega
        · intro hnone
          simp at hnone

/-- C10: `writeUsersToSheet` slices the rows into `ceil(n/1000)` consecutive
batches of at most 1000 rows each in input order, and every append call it
issues carries one whole batch (hence never more than 1000 rows), with at
most two appends per batch and, on success, at least one append per
batch. -/
theorem writeUsersToSheet_batching (base : String) (svc : SvcState) (users : List Account)
    (huniq : (users.map Account.userId).Nodup) :
    (mkBatches (users.map fun user => [user.userId, user.nickname])).flatten =
      users.map (fun user => [user.userId, user.nickname]) ∧
    (mkBatches (users.map fun user => [user.userId, user.nickname])).length =
      (users.length + 999) / 1000 ∧
    (∀ b ∈ mkBatches (users.map fun user => [user.userId, user.nickname]),
      b.length ≤ 1000) ∧
    ∃ Δ : List SheetOp,
      (writeUsersToSheet base svc users).2.trace = svc.trace ++ Δ ∧
      (∀ s rows, SheetOp.append s rows ∈ Δ → rows.length ≤ 1000) ∧
      appendCount Δ ≤
        2 * (mkBatches (users.map fun user => [user.userId, user.nickname])).length ∧
      ((writeUsersToSheet base svc users).1 = none →
        (mkBatches (users.map fun user => [user.userId, user.nickname])).length ≤
          appendCount Δ) := by
  refine ⟨mkBatches_join _, ?_, mkBatches_le _, ?_⟩
  · rw [mkBatches_length, List.length_map]
  · unfold writeUsersToSheet
    by_cases h0 : users.length = 0
    · rw [if_pos h0]
      have husers : users = [] := List.length_eq_zero.mp h0
      subst husers
      refine ⟨[], by simp, by simp, ?_, ?_⟩
      · simp [appendCount]
      · intro _
        simp only [List.map_nil]
        rw [mkBatches]
        simp [appendCount]
    · rw [if_neg h0]
      obtain ⟨Δ, htr, hmem, hub, hlb⟩ := writeBatchLoop_trace base
        (mkBatches (users.map fun user => [user.userId, user.nickname])) base 1 svc
      refine ⟨Δ, htr, ?_, hub, hlb⟩
      intro s rows hr
      exact mkBatches_le _ rows (hmem s rows hr)

/-- C10 (witness): two accounts make a single batch, the written trace
starts from the empty trace, and every append carries at most 1000 rows. -/
theorem writeUsersToSheet_batching_witness :
    (mkBatches (([⟨"a", "x"⟩, ⟨"b", "y"⟩] : List Account).map
        (fun user => [user.userId, user.nickname]))).flatten =
      ([⟨"a", "x"⟩, ⟨"b", "y"⟩] : List Account).map
        (fun user => [user.userId, user.nickname]) ∧
    ∃ Δ : List SheetOp,
      (writeUsersToSheet "S" svcAllOk [⟨"a", "x"⟩, ⟨"b", "y"⟩]).2.trace =
        svcAllOk.trace ++ Δ ∧
      (∀ s rows, SheetOp.append s rows ∈ Δ → rows.length ≤ 1000) := by
  have h := writeUsersToSheet_batching "S" svcAllOk [⟨"a", "x"⟩, ⟨"b", "y"⟩] (by decide)
  obtain ⟨h1, -, -, Δ, htr, hmem, -, -⟩ := h
  exact ⟨h1, Δ, htr, hmem⟩

/-- `initializeSpreadsheet` pointwise: the target sheet ends up holding
exactly the header row, every other sheet is untouched, whether or not the
target pre-existed. -/
theorem initializeSpreadsheet_apply (sheets : SheetStore) (name m : String) :
    initializeSpreadsheet sheets name m =
      if m = name then some [HEADER] else sheets m := by
  unfold initializeSpreadsheet
  cases h : sheets name <;>
    · simp only [h]
      by_cases hm : m = name <;> simp [hm]

/-- C9: initializing the spreadsheet twice for the same sheet name has the
same effect as initializing it once — the sheet holds exactly one header
row `["User ID", "Nickname"]` and no duplicated header rows, whether or not
the sheet existed before the first call. -/
theorem initializeSpreadsheet_idem (sheets : SheetStore) (name : String) :
    initializeSpreadsheet (initializeSpreadsheet sheets name) name =
        initializeSpreadsheet sheets name ∧
      initializeSpreadsheet sheets name name = some [HEADER] ∧
      ((initializeSpreadsheet sheets name name).getD []).count HEADER = 1 := by
  refine ⟨funext fun m => ?_, ?_, ?_⟩
  · by_cases hm : m = name <;> simp [initializeSpreadsheet_apply, hm]
  · simp [initializeSpreadsheet_apply]
  · simp [initializeSpreadsheet_apply]

/-- C8 (amended): every fatal error (authentication, initialization, or a
failure inside the scraping loops) propagates through `main`'s body to the
top-level `catch`, which aborts the run and logs a descriptive message —
but the process then finishes normally: `main` never rejects and nothing
sets a non-zero exit status. -/
theorem fatal_error_flow (e : String) (init process : Except String Unit) :
    mainBody (.error e) init process = .error e ∧
    mainBody (.ok ()) (.error e) process = .error e ∧
    mainBody (.ok ()) (.ok ()) (.error e) = .error e ∧
    (∀ body : Except String Unit, body = .error e →
      topLevelRun body =
        (ExitKind.success,
          ["Error in main process: " ++ e, "Script execution finished."])) := by
  refine ⟨rfl, rfl, rfl, ?_⟩
  rintro body rfl
  rfl

/-- C8 (witness): an authentication failure reaches the top level and is
logged, and the run completes with the success exit status. -/
theorem fatal_error_flow_witness :
    mainBody (.error "invalid_grant") (.ok ()) (.ok ()) = .error "invalid_grant" ∧
    topLevelRun (.error "invalid_grant") =
      (ExitKind.success,
        ["Error in main process: " ++ "invalid_grant", "Script execution finished."]) := by
  have h := fatal_error_flow "invalid_grant" (.ok ()) (.ok ())
  exact ⟨h.1, h.2.2.2 _ rfl⟩

/-- C8 (counterexample): a fatal authentication error does NOT terminate
the process with a failure signal — the exit status is the normal success
one, refuting the non-zero-exit part of the claim (the descriptive message
is logged, though). -/
theorem main_exit_counterexample :
    (topLevelRun (mainBody (.error "invalid_grant") (.ok ()) (.ok ()))).1 =
      ExitKind.success ∧
    (topLevelRun (mainBody (.error "invalid_grant") (.ok ()) (.ok ()))).2 =
      ["Error in main process: invalid_grant", "Script execution finished."] ∧
    ExitKind.success ≠ ExitKind.failure := by
  refine ⟨rfl, rfl, by decide⟩

end FaceitScraper
